import Mathlib

/-!
# SeePlace — verification of the place search / selection / pin workflow

Shallow embedding of the SeePlace repository (a Google-Places/Redux-Saga
single-page application) and proofs about the claims of its specification.

The embedding covers:
* the vendor-geometry serialization helpers
  (`serializeGoogleMapsGeometry` / `serializePlaceObject` from the saga file,
  and the inline location serialization of the Redux slice reducers);
* the `placesSlice` reducers `selectPlace` and `addToSearchHistory`;
* the `googleMapsService` query validation and vendor-status mapping of
  `searchPlaces` (both the current service file and the earlier revision),
  and the lazy `initialize()` state machine;
* the saga workflows `selectPlaceSaga` (both revisions, as action traces) and
  the `searchFlowSaga` take/cancel/fork loop (as a small-step task system).

JS numbers only ever get copied by this code (no arithmetic), so coordinates
are carried by `Int`; the concrete numerals stand for the JS numbers.
-/

namespace SeePlace

/-- A JS coordinate field as found on vendor geometry objects: either a plain
number, or a zero-argument accessor function returning that number (the vendor
SDK exposes `lat`/`lng` either way depending on call path). -/
inductive CoordVal where
  | num (x : Int)
  | fn (x : Int)
deriving DecidableEq, Repr

/-- The JS idiom `typeof v === "function" ? v() : v`. -/
def CoordVal.read : CoordVal → Int
  | .num x => x
  | .fn x => x

/-- Whether the field is a plain number (the serialized form). -/
def CoordVal.isNum : CoordVal → Bool
  | .num _ => true
  | .fn _ => false

/-- A vendor (or serialized) `{lat, lng}` record. -/
structure RawLatLng where
  lat : CoordVal
  lng : CoordVal
deriving DecidableEq, Repr

/-- The shapes a `viewport` (or `bounds`) value can have in the code:
* `boundsObj`: a vendor `LatLngBounds` exposing `getNorthEast`/`getSouthWest`;
* `nesw`: a plain record with `north`/`east`/`south`/`west` numeric fields;
* `corners`: a plain `{northeast, southwest}` record (the serialized shape);
* `otherV`: any other object (no recognized fields). -/
inductive RawViewport where
  | boundsObj (ne sw : RawLatLng)
  | nesw (north east south west : Int)
  | corners (northeast southwest : RawLatLng)
  | otherV
deriving DecidableEq, Repr

/-- A place `geometry` value. -/
structure RawGeometry where
  location : Option RawLatLng
  viewport : Option RawViewport
  bounds : Option RawViewport
deriving DecidableEq, Repr

/-- A Place object.  `structured_main`/`structured_secondary` model
`structured_formatting?.main_text` / `structured_formatting?.secondary_text`.
Fields the claims never inspect (e.g. `types`, `photos`) are omitted. -/
structure RawPlace where
  place_id : Option String
  name : Option String
  description : Option String
  formatted_address : Option String
  structured_main : Option String
  structured_secondary : Option String
  geometry : Option RawGeometry
deriving DecidableEq, Repr

/-! ## Geometry serialization (placesSaga helper `serializeGoogleMapsGeometry`) -/

/-- `{ lat: typeof loc.lat === "function" ? loc.lat() : loc.lat, lng: ... }`. -/
def serializeLatLng (l : RawLatLng) : RawLatLng :=
  { lat := .num l.lat.read, lng := .num l.lng.read }

/-- The `geometry.viewport` branch of `serializeGoogleMapsGeometry`:
a bounds object is read through `getNorthEast()`/`getSouthWest()`, a plain
`north`-field record is repacked, anything else is dropped (left `undefined`
on the serialized record). -/
def serializeViewport : RawViewport → Option RawViewport
  | .boundsObj ne sw => some (.corners (serializeLatLng ne) (serializeLatLng sw))
  | .nesw n e s w => some (.corners ⟨.num n, .num e⟩ ⟨.num s, .num w⟩)
  | .corners _ _ => none
  | .otherV => none

/-- The `geometry.bounds` branch: only the `getNorthEast`/`getSouthWest`
shape is handled; every other shape is dropped. -/
def serializeBounds : RawViewport → Option RawViewport
  | .boundsObj ne sw => some (.corners (serializeLatLng ne) (serializeLatLng sw))
  | _ => none

/-- `serializeGoogleMapsGeometry(geometry)` from the saga file:
`null` stays `null`; otherwise location, viewport and bounds are each
normalized into plain records. -/
def serializeGoogleMapsGeometry : Option RawGeometry → Option RawGeometry
  | none => none
  | some g =>
    some { location := g.location.map serializeLatLng,
           viewport := g.viewport.bind serializeViewport,
           bounds := g.bounds.bind serializeBounds }

/-- `serializePlaceObject(place)` from the saga file: replace `geometry` by its
fully serialized form (the deleted `map`/`service` handles are not modeled). -/
def serializePlaceObject (p : RawPlace) : RawPlace :=
  { p with geometry := serializeGoogleMapsGeometry p.geometry }

/-! ### Plain-number checkers (decidable form of the serialization contract) -/

def latLngIsNum (l : RawLatLng) : Bool := l.lat.isNum && l.lng.isNum

/-- A viewport slot is in serialized form when absent or a plain-corner record
with numeric coordinates. -/
def viewportIsNum : Option RawViewport → Bool
  | none => true
  | some (.corners ne sw) => latLngIsNum ne && latLngIsNum sw
  | some _ => false

/-- A geometry is fully serialized: location (if present), viewport and bounds
all hold plain numbers. -/
def geometryIsNum : Option RawGeometry → Bool
  | none => true
  | some g =>
    (match g.location with | none => true | some l => latLngIsNum l)
      && viewportIsNum g.viewport && viewportIsNum g.bounds

/-- A place whose stored geometry holds only plain numbers, recursively. -/
def placeIsNum (p : RawPlace) : Bool := geometryIsNum p.geometry

/-- Only the `geometry.location` coordinates are plain numbers (if present). -/
def locationIsNum (p : RawPlace) : Bool :=
  match p.geometry with
  | none => true
  | some g => match g.location with | none => true | some l => latLngIsNum l

/-! ## placesSlice: state and reducers -/

/-- A search-history entry (`{id, query, place, timestamp}`).  The JS `id` is
`Date.now().toString()`; it is passed in as `nowId`. -/
structure HistoryItem where
  id : String
  query : String
  place : RawPlace
  timestamp : Int
deriving DecidableEq, Repr

/-- Serializable marker data (`{position, title, placeId, note}`). -/
structure MarkerData where
  position : Option RawLatLng
  title : String
  placeId : Option String
  note : Option String
deriving DecidableEq, Repr

/-- The `places` slice state. -/
structure PlacesState where
  suggestions : List RawPlace
  searchHistory : List HistoryItem
  selectedPlace : Option RawPlace
  markers : List MarkerData
deriving DecidableEq, Repr

def initialPlacesState : PlacesState := ⟨[], [], none, []⟩

/-- The payload shapes the `selectPlace` reducer distinguishes:
an `{place, query}` envelope, a bare place object, or a non-object value
(on which the reducer warns and returns without touching the state). -/
inductive SelectPayload where
  | envelope (place : RawPlace) (query : Option String)
  | bare (place : RawPlace)
  | invalid
deriving DecidableEq, Repr

/-- The inline serialization both slice reducers perform before storing a
place: when `place.geometry && place.geometry.location`, the location is
normalized to plain numbers and the rest of the geometry (viewport, bounds) is
spread through unchanged; otherwise the place is stored as given. -/
def serializeLocationOnly (p : RawPlace) : RawPlace :=
  match p.geometry with
  | some g =>
    match g.location with
    | some l => { p with geometry := some { g with location := some (serializeLatLng l) } }
    | none => p
  | none => p

/-- The `selectPlace` reducer: unwrap `payload.place || payload`, serialize the
location, store the place as selected, and clear the suggestion list. -/
def selectPlace (st : PlacesState) (payload : SelectPayload) : PlacesState :=
  match payload with
  | .invalid => st
  | .envelope p _ => { st with selectedPlace := some (serializeLocationOnly p), suggestions := [] }
  | .bare p => { st with selectedPlace := some (serializeLocationOnly p), suggestions := [] }

/-- The JS `findIndex` + `splice(existingIndex, 1)` pair: remove the first
history item whose `place.place_id === pid` (note `undefined === undefined`
holds in JS, matching `none = none` here); no match leaves the list as is. -/
def removeFirstByPid (pid : Option String) : List HistoryItem → List HistoryItem
  | [] => []
  | it :: rest => if it.place.place_id = pid then rest else it :: removeFirstByPid pid rest

/-- `if (state.searchHistory.length > 20) state.searchHistory =
state.searchHistory.slice(0, 20)`. -/
def trimTo20 (l : List HistoryItem) : List HistoryItem :=
  if 20 < l.length then l.take 20 else l

/-- The `addToSearchHistory` reducer: serialize the place location, remove any
existing entry for the same `place_id`, unshift the new entry, and trim the
list to 20 entries. -/
def addToSearchHistory (st : PlacesState) (query : String) (place : RawPlace)
    (timestamp : Int) (nowId : String) : PlacesState :=
  { st with searchHistory :=
      trimTo20 (⟨nowId, query, serializeLocationOnly place, timestamp⟩ ::
        removeFirstByPid (serializeLocationOnly place).place_id st.searchHistory) }

/-! ## String helpers used by the service and saga code -/

/-- JS whitespace for `trim()` (the code only ever trims ordinary
whitespace; only the length inequality below matters for the proofs). -/
def isJsSpace (c : Char) : Bool := c = ' ' || c = '\t' || c = '\n' || c = '\r'

/-- `trim()` on the character list: drop leading and trailing whitespace. -/
def trimChars (l : List Char) : List Char :=
  ((l.dropWhile isJsSpace).reverse.dropWhile isJsSpace).reverse

/-- JS `String.prototype.trim`. -/
def jsTrim (s : String) : String := ⟨trimChars s.data⟩

/-- Does the pattern occur at the head of the text? -/
def startsWithChars : List Char → List Char → Bool
  | [], _ => true
  | _ :: _, [] => false
  | p :: ps, t :: ts => p = t && startsWithChars ps ts

/-- Contiguous-substring test on character lists. -/
def containsChars (pat : List Char) : List Char → Bool
  | [] => startsWithChars pat []
  | t :: ts => startsWithChars pat (t :: ts) || containsChars pat ts

/-- JS `haystack.includes(pattern)`. -/
def containsSub (hay pat : String) : Bool := containsChars pat.data hay.data

/-- JS `a || b` on string-or-undefined values: the empty string is falsy. -/
def jsOrS (a b : Option String) : Option String :=
  match a with
  | some s => if s = "" then b else some s
  | none => b

/-- JS `a || d` with a string literal default. -/
def jsOrDefault (a : Option String) (d : String) : String :=
  match a with
  | some s => if s = "" then d else s
  | none => d

/-! ## googleMapsService: `searchPlaces` query validation and status mapping -/

/-- The vendor `PlacesServiceStatus` codes handled by the code. -/
inductive PlacesStatus where
  | OK | ZERO_RESULTS | OVER_QUERY_LIMIT | REQUEST_DENIED | INVALID_REQUEST
  | UNKNOWN_ERROR | NOT_FOUND
deriving DecidableEq, Repr

/-- The string form of a status code (what `${status}` interpolates). -/
def statusString : PlacesStatus → String
  | .OK => "OK"
  | .ZERO_RESULTS => "ZERO_RESULTS"
  | .OVER_QUERY_LIMIT => "OVER_QUERY_LIMIT"
  | .REQUEST_DENIED => "REQUEST_DENIED"
  | .INVALID_REQUEST => "INVALID_REQUEST"
  | .UNKNOWN_ERROR => "UNKNOWN_ERROR"
  | .NOT_FOUND => "NOT_FOUND"

/-- The `getPlacePredictions` callback of the current service file
(`googleMapsService.js`): `OK` resolves the predictions, `ZERO_RESULTS`
resolves `[]`, and any other status rejects with `Search failed: ${status}`,
overridden by a fixed descriptive message for `REQUEST_DENIED`,
`OVER_QUERY_LIMIT` and `INVALID_REQUEST`. -/
def searchStatusResult (status : PlacesStatus) (predictions : List RawPlace) :
    Except String (List RawPlace) :=
  match status with
  | .OK => .ok predictions
  | .ZERO_RESULTS => .ok []
  | .REQUEST_DENIED =>
      .error "Places API access denied. Your API key does not have permission for Places API."
  | .OVER_QUERY_LIMIT => .error "Places API quota exceeded. Check your billing account."
  | .INVALID_REQUEST => .error "Invalid search request parameters."
  | s => .error ("Search failed: " ++ statusString s)

/-- `searchPlaces(query)` of the current service file, with the vendor lookup
as an oracle.  The second component records the input of the
`getPlacePredictions` call, `none` when no vendor lookup is issued: the guard
`!query || typeof query !== "string" || query.trim().length < 2` resolves `[]`
before the service is even initialized.  (Initialization is modeled
separately; here it is taken as already succeeded.) -/
def searchPlaces (vendor : String → PlacesStatus × List RawPlace) (query : String) :
    Except String (List RawPlace) × Option String :=
  if query = "" || (jsTrim query).length < 2 then (.ok [], none)
  else
    let input := jsTrim query
    let r := vendor input
    (searchStatusResult r.1 r.2, some input)

/-- The `getPlacePredictions` callback of the earlier service revision:
every non-`OK`, non-`ZERO_RESULTS` status rejects with
`Places API error: ${status}`. -/
def searchStatusResultEarlier (status : PlacesStatus) (predictions : List RawPlace) :
    Except String (List RawPlace) :=
  match status with
  | .OK => .ok predictions
  | .ZERO_RESULTS => .ok []
  | s => .error ("Places API error: " ++ statusString s)

/-- `searchPlaces(query)` of the earlier service revision: the guard is
`!query || query.length < 2` (no trim) and the query is passed untrimmed. -/
def searchPlacesEarlier (vendor : String → PlacesStatus × List RawPlace) (query : String) :
    Except String (List RawPlace) × Option String :=
  if query = "" || query.length < 2 then (.ok [], none)
  else
    let r := vendor query
    (searchStatusResultEarlier r.1 r.2, some query)

/-! ## googleMapsService: the lazy `initialize()` state machine

`initialize()` runs synchronously up to returning a promise, so its body is a
single step on the service state.  `_performInitialization` starts the one
`loader.load()` call as soon as the promise is created (counted by
`loadCount`); the load settles later, as a separate `loadOk`/`loadFail`
event applied when the created promise is still pending. -/

structure SvcState where
  isInitialized : Bool
  google : Option Nat
  autocompleteService : Bool
  initializationPromise : Option Nat
  initializationError : Option String
  loadCount : Nat
  nextPromiseId : Nat
deriving DecidableEq, Repr

/-- What one `initialize()` call gives its caller: the cached handle, the
shared in-flight promise (identified by id), or a cached permanent failure. -/
inductive InitOutcome where
  | handle (h : Nat)
  | awaiting (p : Nat)
  | threw (e : String)
deriving DecidableEq, Repr

/-- One `initialize()` call, mirroring the four branches of the source in
order: cached error → throw; initialized with live handles → return cached
handle; in-flight promise → return it; otherwise create the promise and start
the load. -/
def initService (s : SvcState) : SvcState × InitOutcome :=
  match s.initializationError with
  | some e => (s, .threw e)
  | none =>
    match s.isInitialized, s.google, s.autocompleteService with
    | true, some g, true => (s, .handle g)
    | _, _, _ =>
      match s.initializationPromise with
      | some p => (s, .awaiting p)
      | none =>
        let p := s.nextPromiseId
        ({ s with initializationPromise := some p,
                  nextPromiseId := s.nextPromiseId + 1,
                  loadCount := s.loadCount + 1 }, .awaiting p)

/-- Success path of `_performInitialization`: the SDK handle and the
autocomplete service are stored, `isInitialized` is set and the promise slot
cleared.  A completion with no pending load is ignored. -/
def resolveLoad (s : SvcState) (h : Nat) : SvcState :=
  match s.initializationPromise with
  | some _ => { s with google := some h, autocompleteService := true,
                       isInitialized := true, initializationPromise := none }
  | none => s

/-- Failure path of `_performInitialization`: the error is cached as a
permanent failure and the promise slot cleared. -/
def rejectLoad (s : SvcState) (e : String) : SvcState :=
  match s.initializationPromise with
  | some _ => { s with isInitialized := false, initializationPromise := none,
                       initializationError := some e }
  | none => s

/-- The events of an `initialize()` history: a caller invoking it, or the
pending SDK load settling. -/
inductive SvcEv where
  | callInit
  | loadOk (h : Nat)
  | loadFail (e : String)
deriving DecidableEq, Repr

def svcStep (acc : SvcState × List InitOutcome) (e : SvcEv) : SvcState × List InitOutcome :=
  match e with
  | .callInit =>
    let r := initService acc.1
    (r.1, acc.2 ++ [r.2])
  | .loadOk h => (resolveLoad acc.1 h, acc.2)
  | .loadFail e => (rejectLoad acc.1 e, acc.2)

def svcInit : SvcState := ⟨false, none, false, none, none, 0, 0⟩

/-- Run a history of calls and load completions, collecting each caller's
outcome in order. -/
def runSvc (evs : List SvcEv) : SvcState × List InitOutcome := evs.foldl svcStep (svcInit, [])

/-! ## placesSaga: the place-selection workflows as action traces

A saga run is modeled by the list of actions it `put`s, with the result of the
one suspension point (`getPlaceDetails`) supplied as an oracle value.  The
`uiSlice` actions (`setError`, loading flags) appear in the traces; applied to
the places state they are no-ops (their reducers live in the ui slice). -/

/-- `getPlaceDetails` either resolves a place-details object or rejects with
an error message. -/
inductive DetailsOutcome where
  | ok (pd : RawPlace)
  | err (msg : String)
deriving DecidableEq, Repr

/-- The actions the modeled sagas dispatch. -/
inductive Action where
  | setSearchLoadingA (b : Bool)
  | setMapLoadingA (b : Bool)
  | setErrorA (e : Option String)
  | searchPlacesSuccessA (ps : List RawPlace)
  | searchPlacesFailureA (msg : String)
  | selectPlaceA (payload : SelectPayload)
  | addToSearchHistoryA (query : String) (place : RawPlace) (timestamp : Int)
  | clearMarkersA
  | addMarkerA (m : MarkerData)
deriving DecidableEq, Repr

/-- `place.geometry && place.geometry.location`, as the optional location. -/
def placeLocation (p : RawPlace) : Option RawLatLng :=
  match p.geometry with
  | some g => g.location
  | none => none

/-- The guard for the detail fetch in both saga revisions:
`place.place_id && (!place.geometry || !place.geometry.location)`. -/
def needsDetails (p : RawPlace) : Bool :=
  p.place_id.isSome && (placeLocation p).isNone

/-- `{...place, ...placeDetails, description: place.description ||
placeDetails.formatted_address}` from the newer saga revision.  A details
response carries the requested fields (`name`, `geometry`,
`formatted_address`, `place_id`); fields it does not carry
(`structured_formatting`) survive from the original place. -/
def mergePlaceDetails (place pd : RawPlace) : RawPlace :=
  { place_id := pd.place_id.or place.place_id,
    name := pd.name.or place.name,
    formatted_address := pd.formatted_address.or place.formatted_address,
    structured_main := place.structured_main,
    structured_secondary := place.structured_secondary,
    geometry := pd.geometry.or place.geometry,
    description := jsOrS place.description pd.formatted_address }

/-! ### The newer saga revision (`serializePlaceObject`-based) -/

/-- Tail of the newer `selectPlaceSaga` after detail resolution: validate the
geometry (abort with `Selected place has no location data` when absent — the
explicit `setMapLoading(false)` plus the one from the `finally` block), fully
serialize the place, and append it to the search history when an originating
query was supplied (`if (query && fullySerializedPlace)`). -/
def saga006Finish (processed : RawPlace) (query : String) (ts : Int) : List Action :=
  match placeLocation processed with
  | none => [.setErrorA (some "Selected place has no location data"),
             .setMapLoadingA false, .setMapLoadingA false]
  | some _ =>
    (if query = "" then [] else
      [.addToSearchHistoryA (jsTrim query) (serializePlaceObject processed) ts])
      ++ [.setMapLoadingA false]

/-- Body of the newer `selectPlaceSaga` for an object payload: set the loading
flag, clear the error, fetch details when the place has an id but no location
(on rejection surface `Could not get location details` and abort — again one
explicit `setMapLoading(false)` plus the `finally` one), then finish. -/
def saga006Body (p : RawPlace) (query : String) (details : DetailsOutcome) (ts : Int) :
    List Action :=
  [.setMapLoadingA true, .setErrorA none] ++
  (if needsDetails p then
    match details with
    | .err _ => [.setErrorA (some "Could not get location details"),
                 .setMapLoadingA false, .setMapLoadingA false]
    | .ok pd =>
      if (placeLocation pd).isSome then saga006Finish (mergePlaceDetails p pd) query ts
      else saga006Finish p query ts
  else saga006Finish p query ts)

/-- The newer `selectPlaceSaga` (triggered by every `selectPlace` action).
A non-object payload returns before any explicit `put`; only the `finally`
block's `setMapLoading(false)` runs.  `query` is `payload.query || ""`. -/
def selectPlaceSaga006 (payload : SelectPayload) (details : DetailsOutcome) (ts : Int) :
    List Action :=
  match payload with
  | .invalid => [.setMapLoadingA false]
  | .envelope p q => saga006Body p (jsOrDefault q "") details ts
  | .bare p => saga006Body p "" details ts

/-! ### The current saga file (`placesSaga.js`) -/

/-- The catch-block classification of `selectPlaceSaga` in the current saga
file, producing the user-facing message. -/
def classifySelectError (msg : String) : String :=
  if containsSub msg "API key" then "Google Maps API key issue. Please check configuration."
  else if containsSub msg "quota" || containsSub msg "billing" then
    "Google Maps usage limit reached. Please try again later."
  else if containsSub msg "network" then "Network error. Please check your internet connection."
  else if containsSub msg "service" then "Maps service issue. Please refresh the page."
  else "Failed to load place details. Please try again."

/-- `place.name || place.formatted_address || "Selected Place"`. -/
def markerTitle (p : RawPlace) : String :=
  jsOrDefault (jsOrS p.name p.formatted_address) "Selected Place"

/-- `updateMapSaga` (forked after the history append; it runs to completion
at the fork point since it never blocks): clear markers, then add the one
marker — with position when the place has geometry, with a
`No location data available` note otherwise. -/
def updateMapActions (p : RawPlace) : List Action :=
  match placeLocation p with
  | some loc => [.clearMarkersA, .addMarkerA ⟨some loc, markerTitle p, p.place_id, none⟩]
  | none => [.clearMarkersA,
             .addMarkerA ⟨none, markerTitle p, p.place_id, some "No location data available"⟩]

/-- The quota/billing fallback details object of the current saga file:
`{place_id, name: structured_formatting?.main_text || description,
formatted_address: structured_formatting?.secondary_text || description,
geometry: null}`. -/
def quotaFallbackPlace (place : RawPlace) : RawPlace :=
  { place_id := place.place_id,
    name := jsOrS place.structured_main place.description,
    formatted_address := jsOrS place.structured_secondary place.description,
    structured_main := none,
    structured_secondary := none,
    geometry := none,
    description := none }

/-- Success tail of the current `selectPlaceSaga`: commit the selection
(`put(selectPlace(placeDetails))`, a bare re-dispatch), append the history
entry (`query || place.description || placeDetails.name || "Unknown Place"`),
run the forked map update, then the `finally` block clears the loading flag.
The re-dispatched bare `selectPlace` re-triggers the saga, whose run emits
only loading/error actions (the bare branch below); that nested run is not
inlined into this trace. -/
def selectPlaceContinue (place : RawPlace) (query : Option String) (pd : RawPlace)
    (ts : Int) : List Action :=
  [.selectPlaceA (.bare pd),
   .addToSearchHistoryA (jsOrDefault (jsOrS query (jsOrS place.description pd.name))
     "Unknown Place") pd ts]
  ++ updateMapActions pd ++ [.setMapLoadingA false]

/-- `selectPlaceSaga` of the current saga file, triggered by every
`selectPlace` action.  The payload is destructured as `{place, query}`, so a
bare place (or non-object) payload has no `place` field and throws
`Invalid place data - missing place_id`, landing in the catch block.  A
rejected detail fetch either falls back to a basic details object (quota or
billing errors) or rethrows into the catch block. -/
def selectPlaceSagaMain (payload : SelectPayload) (details : DetailsOutcome) (ts : Int) :
    List Action :=
  .setMapLoadingA true ::
  (match payload with
  | .envelope place query =>
    match place.place_id with
    | none => [.setErrorA (some (classifySelectError "Invalid place data - missing place_id")),
               .setMapLoadingA false]
    | some _ =>
      match details with
      | .ok pd => selectPlaceContinue place query pd ts
      | .err msg =>
        if containsSub msg "quota" || containsSub msg "billing" then
          selectPlaceContinue place query (quotaFallbackPlace place) ts
        else
          [.setErrorA (some (classifySelectError msg)), .setMapLoadingA false]
  | .bare _ => [.setErrorA (some (classifySelectError "Invalid place data - missing place_id")),
                .setMapLoadingA false]
  | .invalid => [.setErrorA (some (classifySelectError "Invalid place data - missing place_id")),
                 .setMapLoadingA false])

/-! ### Applying dispatched actions to the places state -/

/-- The places-slice reducers for each dispatched action; ui-slice actions do
not touch the places state. -/
def applyPlacesAction (nowId : String) (st : PlacesState) : Action → PlacesState
  | .selectPlaceA payload => selectPlace st payload
  | .addToSearchHistoryA q p ts => addToSearchHistory st q p ts nowId
  | .searchPlacesSuccessA ps => { st with suggestions := ps }
  | .searchPlacesFailureA _ => { st with suggestions := [] }
  | .clearMarkersA => { st with markers := [] }
  | .addMarkerA m => { st with markers := st.markers ++ [m] }
  | .setSearchLoadingA _ => st
  | .setMapLoadingA _ => st
  | .setErrorA _ => st

def applyPlacesActions (nowId : String) (st : PlacesState) (acts : List Action) : PlacesState :=
  acts.foldl (applyPlacesAction nowId) st

/-- Dispatching `selectPlace(payload)` to the store: the slice reducer commits
first, then the saga triggered by the same action (`takeEvery` on
`selectPlace.type`) runs and its `put` actions are applied in order. -/
def dispatchSelect (st : PlacesState) (payload : SelectPayload) (sagaActs : List Action)
    (nowId : String) : PlacesState :=
  applyPlacesActions nowId (selectPlace st payload) sagaActs

/-! ### Trace observations -/

def isAppend : Action → Bool
  | .addToSearchHistoryA _ _ _ => true
  | _ => false

def isCommit : Action → Bool
  | .selectPlaceA _ => true
  | _ => false

/-- Every history append in the trace is preceded by a selection commit:
scanning left to right, an append before the first commit refutes it. -/
def commitBeforeAppend : List Action → Bool
  | [] => true
  | a :: rest => if isAppend a then false else if isCommit a then true else commitBeforeAppend rest

/-! ## placesSaga: the `searchFlowSaga` take/cancel/fork loop

`searchFlowSaga` holds the task of the last forked `debouncedSearchSaga` and,
on each new `searchPlacesRequest`, cancels it before forking the next one.  A
`debouncedSearchSaga` task suspends at two points: the `delay(300)` debounce
and the vendor `searchPlaces` call; redux-saga cancellation is cooperative and
prompt, so a cancelled task never resumes past its current suspension point —
in particular a cancelled task's late vendor response is discarded, never
`put` into the store.

The model: the flow state keeps the forked tasks, newest first (the head is
the saga's `searchTask` variable), each with the phase it is suspended at and
its cancellation flag; `committed` records which query's results were last
written by `put(searchPlacesSuccess(...))`.  Events: a new submission
(take + cancel + fork), the debounce delay of task `i` elapsing (a short
query commits `[]` right there, a long one starts the vendor call), and the
vendor response of task `i` arriving (committing its results).  An event for
a cancelled or missing task changes nothing: that task never resumes. -/

inductive SearchPhase where
  | debouncing | inflight | finished
deriving DecidableEq, Repr

structure SearchTask where
  query : String
  phase : SearchPhase
  cancelled : Bool
deriving DecidableEq, Repr

structure FlowState where
  tasks : List SearchTask
  committed : Option String
deriving DecidableEq, Repr

/-- `if (searchTask) { yield cancel(searchTask); }` — the most recently forked
task (the head) is cancelled. -/
def cancelCurrent : List SearchTask → List SearchTask
  | [] => []
  | t :: ts => { t with cancelled := true } :: ts

inductive FlowEv where
  | submit (q : String)
  | fire (i : Nat)
  | complete (i : Nat)
deriving DecidableEq, Repr

def flowStep (s : FlowState) (e : FlowEv) : FlowState :=
  match e with
  | .submit q => { s with tasks := ⟨q, .debouncing, false⟩ :: cancelCurrent s.tasks }
  | .fire i =>
    match s.tasks[i]? with
    | some t =>
      if t.cancelled = false ∧ t.phase = .debouncing then
        if t.query.length < 2 then
          { tasks := s.tasks.set i { t with phase := .finished }, committed := some t.query }
        else
          { s with tasks := s.tasks.set i { t with phase := .inflight } }
      else s
    | none => s
  | .complete i =>
    match s.tasks[i]? with
    | some t =>
      if t.cancelled = false ∧ t.phase = .inflight then
        { tasks := s.tasks.set i { t with phase := .finished }, committed := some t.query }
      else s
    | none => s

def flowInit : FlowState := ⟨[], none⟩

def runFlow (evs : List FlowEv) : FlowState := evs.foldl flowStep flowInit

def isSubmit : FlowEv → Bool
  | .submit _ => true
  | _ => false

/-- All tasks other than the newest are cancelled. -/
def oldTasksCancelled : List SearchTask → Bool
  | [] => true
  | _ :: rest => rest.all (·.cancelled)

/-! ## The newer saga revision's search flow: `debounce(500, ...)`

The newer saga file wires searches through redux-saga's
`debounce(500, searchPlacesRequest.type, debouncedSearchSaga)`.  That helper
coalesces actions arriving within the quiet window and then forks one worker
with the latest action — but it never cancels a worker that is already
running, and the worker itself has no staleness check.  So two workers can be
in flight at once, and whichever vendor response arrives last wins the
`put(searchPlacesSuccess(...))`.

The model: a `spawn q` event is the debounce window elapsing and the worker
being forked with (coalesced) query `q`; a short query commits `[]` right
away, a long one leaves the worker suspended at the `call searchPlaces`.  A
`complete i` event is worker `i`'s vendor response arriving, which commits
that worker's results — with no cancellation gate. -/

/-- A forked `debouncedSearchSaga` worker of the debounce-based flow. -/
structure DebTask where
  query : String
  phase : SearchPhase
deriving DecidableEq, Repr

structure DebFlowState where
  tasks : List DebTask
  committed : Option String
deriving DecidableEq, Repr

inductive DebEv where
  | spawn (q : String)
  | complete (i : Nat)
deriving DecidableEq, Repr

def debStep (s : DebFlowState) (e : DebEv) : DebFlowState :=
  match e with
  | .spawn q =>
    if q = "" || (jsTrim q).length < 2 then { s with committed := some q }
    else { s with tasks := ⟨q, .inflight⟩ :: s.tasks }
  | .complete i =>
    match s.tasks[i]? with
    | some t =>
      if t.phase = .inflight then
        { tasks := s.tasks.set i { t with phase := .finished }, committed := some t.query }
      else s
    | none => s

def runDebFlow (evs : List DebEv) : DebFlowState := evs.foldl debStep ⟨[], none⟩

/-! ## Remaining decidable observations and concrete inputs -/

/-- The search-history uniqueness invariant: pairwise distinct
`place.place_id` values. -/
def historyUnique : List HistoryItem → Bool
  | [] => true
  | it :: rest =>
    rest.all (fun j => j.place.place_id != it.place.place_id) && historyUnique rest

/-- Number of history entries whose place has no `place_id`. -/
def countNonePid (l : List HistoryItem) : Nat :=
  l.countP (fun it => it.place.place_id.isNone)

/-- A vendor-shaped place as the Places API returns it: plain-number
location, viewport carried as a `LatLngBounds` whose corner coordinates are
zero-argument accessor functions. -/
def vendorPlace : RawPlace :=
  ⟨some "pid-KLCC", some "KLCC", some "KLCC, Kuala Lumpur", none, none, none,
   some ⟨some ⟨.num 3, .num 101⟩, some (.boundsObj ⟨.fn 4, .fn 102⟩ ⟨.fn 2, .fn 100⟩), none⟩⟩

/-- A prediction-shaped place: identifier and description but no geometry. -/
def predictionPlace : RawPlace :=
  ⟨some "pid-Petronas", none, some "Petronas Towers, Kuala Lumpur", none,
   some "Petronas Towers", some "Kuala Lumpur", none⟩

/-- A minimal place with a given identifier and no geometry. -/
def placeWithId (pid : String) : RawPlace := ⟨some pid, none, none, none, none, none, none⟩

/-- A minimal place with no identifier. -/
def placeNoId : RawPlace := ⟨none, none, none, none, none, none, none⟩

/-- A small search history with distinct identifiers. -/
def sampleHistory : List HistoryItem :=
  [⟨"1", "klcc", placeWithId "A", 1⟩, ⟨"2", "tower", placeWithId "B", 2⟩]

/-- A search history holding one identifier-less entry. -/
def sampleHistoryNoId : List HistoryItem :=
  [⟨"1", "old", placeNoId, 1⟩, ⟨"2", "klcc", placeWithId "A", 2⟩]

/-! ## Helper lemmas -/

theorem latLngIsNum_serializeLatLng (l : RawLatLng) : latLngIsNum (serializeLatLng l) = true := rfl

theorem viewportIsNum_none : viewportIsNum none = true := rfl

theorem viewportIsNum_serializeViewport (v : RawViewport) :
    viewportIsNum (serializeViewport v) = true := by cases v <;> rfl

theorem viewportIsNum_serializeBounds (v : RawViewport) :
    viewportIsNum (serializeBounds v) = true := by cases v <;> rfl

theorem geometryIsNum_serialize (g : Option RawGeometry) :
    geometryIsNum (serializeGoogleMapsGeometry g) = true := by
  cases g with
  | none => rfl
  | some g =>
    obtain ⟨loc, vp, bd⟩ := g
    cases loc <;> cases vp <;> cases bd <;>
      simp [serializeGoogleMapsGeometry, geometryIsNum, viewportIsNum_serializeViewport,
            viewportIsNum_serializeBounds, latLngIsNum_serializeLatLng, viewportIsNum_none]

theorem placeIsNum_serializePlaceObject (p : RawPlace) :
    placeIsNum (serializePlaceObject p) = true :=
  geometryIsNum_serialize p.geometry

theorem locationIsNum_serializeLocationOnly (p : RawPlace) :
    locationIsNum (serializeLocationOnly p) = true := by
  obtain ⟨pid, nm, ds, fa, sm, ss, geo⟩ := p
  cases geo with
  | none => rfl
  | some g =>
    obtain ⟨loc, vp, bd⟩ := g
    cases loc <;> rfl

theorem place_id_serializeLocationOnly (p : RawPlace) :
    (serializeLocationOnly p).place_id = p.place_id := by
  obtain ⟨pid, nm, ds, fa, sm, ss, geo⟩ := p
  cases geo with
  | none => rfl
  | some g =>
    obtain ⟨loc, vp, bd⟩ := g
    cases loc <;> rfl

theorem trimTo20_head? (a : HistoryItem) (l : List HistoryItem) :
    (trimTo20 (a :: l)).head? = some a := by
  unfold trimTo20
  split
  · rw [List.take_cons (by norm_num)]
    rfl
  · rfl

theorem trimTo20_length_le (l : List HistoryItem) : (trimTo20 l).length ≤ 20 := by
  unfold trimTo20
  split
  · rw [List.length_take]
    omega
  · omega

theorem trimTo20_eq_of_le (l : List HistoryItem) (h : l.length ≤ 20) : trimTo20 l = l := by
  unfold trimTo20
  rw [if_neg (by omega)]

theorem addToSearchHistory_head? (st : PlacesState) (q : String) (p : RawPlace)
    (ts : Int) (nid : String) :
    (addToSearchHistory st q p ts nid).searchHistory.head? =
      some ⟨nid, q, serializeLocationOnly p, ts⟩ := by
  unfold addToSearchHistory
  exact trimTo20_head? _ _

theorem dropWhileLengthLe {α : Type} (p : α → Bool) (l : List α) :
    (l.dropWhile p).length ≤ l.length := by
  induction l with
  | nil => simp
  | cons a l ih =>
    rw [List.dropWhile_cons]
    split
    · exact Nat.le_succ_of_le ih
    · simp

theorem jsTrim_length_le (s : String) : (jsTrim s).length ≤ s.length := by
  have h1 : (jsTrim s).length = (trimChars s.data).length := rfl
  have h2 : s.length = s.data.length := rfl
  rw [h1, h2]
  unfold trimChars
  rw [List.length_reverse]
  calc ((s.data.dropWhile isJsSpace).reverse.dropWhile isJsSpace).length
      ≤ (s.data.dropWhile isJsSpace).reverse.length := dropWhileLengthLe _ _
    _ = (s.data.dropWhile isJsSpace).length := List.length_reverse _
    _ ≤ s.data.length := dropWhileLengthLe _ _

/-! ## Claim C1 — serialization of committed places -/

/-- C1, counterexample: committing a vendor-shaped place through the
`selectPlace` state transition does store a place, but its viewport corners
are still accessor functions — the reducer normalizes only
`geometry.location` and spreads the rest of the geometry through unchanged,
so the claimed recursive viewport normalization does not hold on this commit
path. -/
theorem selectPlace_viewport_unnormalized :
    (selectPlace initialPlacesState (.envelope vendorPlace (some "KLCC"))).selectedPlace
      = some (serializeLocationOnly vendorPlace) ∧
    placeIsNum (serializeLocationOnly vendorPlace) = false ∧
    (selectPlace initialPlacesState (.envelope vendorPlace (some "KLCC"))).selectedPlace ≠ none := by
  refine ⟨rfl, by decide, by decide⟩

/-- C1, amended: every place committed by the `selectPlace` reducer or stored
by the `addToSearchHistory` reducer has plain-number `geometry.location`
coordinates whatever the vendor payload looked like, and the recursive
normalization of the viewport (and bounds) corners holds for
`serializeGoogleMapsGeometry`/`serializePlaceObject` — the saga-boundary
helper — not for the reducer commits themselves. -/
theorem selectPlace_location_serialized (st : PlacesState) (p : RawPlace) (q : Option String)
    (query : String) (ts : Int) (nid : String) :
    (selectPlace st (.envelope p q)).selectedPlace = some (serializeLocationOnly p) ∧
    (selectPlace st (.bare p)).selectedPlace = some (serializeLocationOnly p) ∧
    locationIsNum (serializeLocationOnly p) = true ∧
    (addToSearchHistory st query p ts nid).searchHistory.head? =
      some ⟨nid, query, serializeLocationOnly p, ts⟩ ∧
    placeIsNum (serializePlaceObject p) = true :=
  ⟨rfl, rfl, locationIsNum_serializeLocationOnly p, addToSearchHistory_head? st query p ts nid,
   placeIsNum_serializePlaceObject p⟩

/-! ## Claim C9 — `selectPlace` clears the suggestion list -/

/-- C9: every `selectPlace` transition with a valid (object) payload leaves
the suggestions field empty, whatever it contained before. -/
theorem selectPlace_clears_suggestions (st : PlacesState) (payload : SelectPayload)
    (h : payload ≠ .invalid) : (selectPlace st payload).suggestions = [] := by
  cases payload with
  | invalid => exact absurd rfl h
  | envelope p q => rfl
  | bare p => rfl

theorem selectPlace_clears_suggestions_witness :
    (selectPlace ⟨[vendorPlace, predictionPlace], [], none, []⟩ (.bare vendorPlace)).suggestions
      = [] :=
  selectPlace_clears_suggestions ⟨[vendorPlace, predictionPlace], [], none, []⟩
    (.bare vendorPlace) (by decide)

/-! ## Claim C2 — short queries return `[]` without a vendor lookup -/

/-- C2: a query shorter than 2 characters makes `searchPlaces` resolve `[]`
with no `getPlacePredictions` call issued (the `none` second component), in
both service revisions. -/
theorem searchPlaces_short_query (vendor : String → PlacesStatus × List RawPlace)
    (q : String) (h : q.length < 2) :
    searchPlaces vendor q = (.ok [], none) ∧ searchPlacesEarlier vendor q = (.ok [], none) := by
  have ht : (jsTrim q).length < 2 := lt_of_le_of_lt (jsTrim_length_le q) h
  constructor
  · unfold searchPlaces
    rw [if_pos]
    simp [ht]
  · unfold searchPlacesEarlier
    rw [if_pos]
    simp [h]

theorem searchPlaces_short_query_witness :
    searchPlaces (fun _ => (.OK, [vendorPlace])) "K" = (.ok [], none) ∧
    searchPlacesEarlier (fun _ => (.OK, [vendorPlace])) "K" = (.ok [], none) :=
  searchPlaces_short_query (fun _ => (.OK, [vendorPlace])) "K" (by decide)

/-! ## Claim C7 — vendor status mapping -/

/-- C7, counterexample: in the current service file a `REQUEST_DENIED` lookup
rejects with a fixed descriptive message that does not quote the vendor
status code, so "a SearchError carrying the vendor status code" fails as
stated for this status. -/
theorem searchPlaces_denied_message_lacks_code :
    (searchPlaces (fun _ => (.REQUEST_DENIED, [])) "KLCC").1 =
      .error "Places API access denied. Your API key does not have permission for Places API." ∧
    containsSub "Places API access denied. Your API key does not have permission for Places API."
      "REQUEST_DENIED" = false := by
  refine ⟨rfl, by decide⟩

/-- C7, amended: `ZERO_RESULTS` maps to an empty list (not an error) — and an
empty committed suggestion list via `searchPlacesSuccess` — while every other
non-`OK` status maps to an error; the error message quotes the vendor status
code for the default statuses (`UNKNOWN_ERROR`, `NOT_FOUND`) and, in the
earlier service revision, for every failing status, whereas `REQUEST_DENIED`,
`OVER_QUERY_LIMIT` and `INVALID_REQUEST` map to fixed descriptive messages in
the current file. -/
theorem searchPlaces_status_mapping (st : PlacesStatus) (ps : List RawPlace)
    (stt : PlacesState) (nid : String) :
    searchStatusResult .OK ps = .ok ps ∧
    searchStatusResult .ZERO_RESULTS ps = .ok [] ∧
    searchStatusResultEarlier .ZERO_RESULTS ps = .ok [] ∧
    (st ≠ .OK → st ≠ .ZERO_RESULTS →
      (∃ m, searchStatusResult st ps = .error m) ∧
      (∃ m, searchStatusResultEarlier st ps = .error m ∧
        containsSub m (statusString st) = true)) ∧
    ((st = .UNKNOWN_ERROR ∨ st = .NOT_FOUND) →
      searchStatusResult st ps = .error ("Search failed: " ++ statusString st) ∧
      containsSub ("Search failed: " ++ statusString st) (statusString st) = true) ∧
    (applyPlacesAction nid stt (.searchPlacesSuccessA [])).suggestions = [] := by
  refine ⟨rfl, rfl, rfl, ?_, ?_, rfl⟩
  · intro h1 h2
    cases st with
    | OK => exact absurd rfl h1
    | ZERO_RESULTS => exact absurd rfl h2
    | OVER_QUERY_LIMIT => exact ⟨⟨_, rfl⟩, _, rfl, by decide⟩
    | REQUEST_DENIED => exact ⟨⟨_, rfl⟩, _, rfl, by decide⟩
    | INVALID_REQUEST => exact ⟨⟨_, rfl⟩, _, rfl, by decide⟩
    | UNKNOWN_ERROR => exact ⟨⟨_, rfl⟩, _, rfl, by decide⟩
    | NOT_FOUND => exact ⟨⟨_, rfl⟩, _, rfl, by decide⟩
  · intro h
    rcases h with h | h <;> subst h <;> exact ⟨rfl, by decide⟩

theorem searchPlaces_status_mapping_witness :
    ∃ m, searchStatusResult .UNKNOWN_ERROR [] = .error m :=
  ((searchPlaces_status_mapping .UNKNOWN_ERROR [] initialPlacesState "t").2.2.2.1
    (by decide) (by decide)).1

/-! ## Claim C4 / C10 — search-history invariants -/

theorem removeFirstByPid_subset (pid : Option String) (l : List HistoryItem) :
    ∀ x ∈ removeFirstByPid pid l, x ∈ l := by
  induction l with
  | nil => intro x hx; simp [removeFirstByPid] at hx
  | cons it rest ih =>
    intro x hx
    simp only [removeFirstByPid] at hx
    split at hx
    · exact List.mem_cons_of_mem _ hx
    · rcases List.mem_cons.mp hx with h | h
      · exact h ▸ List.mem_cons_self _ _
      · exact List.mem_cons_of_mem _ (ih x h)

theorem removeFirstByPid_all_ne (pid : Option String) (l : List HistoryItem)
    (h : historyUnique l = true) :
    ∀ x ∈ removeFirstByPid pid l, x.place.place_id ≠ pid := by
  induction l with
  | nil => intro x hx; simp [removeFirstByPid] at hx
  | cons it rest ih =>
    simp only [historyUnique, Bool.and_eq_true, List.all_eq_true] at h
    obtain ⟨hall, hrest⟩ := h
    intro x hx
    simp only [removeFirstByPid] at hx
    split at hx
    · rename_i heq
      intro hxp
      have hne := hall x hx
      rw [bne_iff_ne] at hne
      exact hne (hxp.trans heq.symm)
    · rcases List.mem_cons.mp hx with h | h
      · subst h; rename_i hne; exact hne
      · exact ih hrest x h

theorem removeFirstByPid_unique (pid : Option String) (l : List HistoryItem)
    (h : historyUnique l = true) : historyUnique (removeFirstByPid pid l) = true := by
  induction l with
  | nil => rfl
  | cons it rest ih =>
    simp only [historyUnique, Bool.and_eq_true, List.all_eq_true] at h
    obtain ⟨hall, hrest⟩ := h
    simp only [removeFirstByPid]
    split
    · exact hrest
    · simp only [historyUnique, Bool.and_eq_true, List.all_eq_true]
      exact ⟨fun x hx => hall x (removeFirstByPid_subset pid rest x hx), ih hrest⟩

theorem historyUnique_take (l : List HistoryItem) (n : Nat)
    (h : historyUnique l = true) : historyUnique (l.take n) = true := by
  induction l generalizing n with
  | nil => cases n <;> rfl
  | cons it rest ih =>
    cases n with
    | zero => rfl
    | succ m =>
      simp only [historyUnique, Bool.and_eq_true, List.all_eq_true] at h
      obtain ⟨hall, hrest⟩ := h
      simp only [List.take_succ_cons, historyUnique, Bool.and_eq_true, List.all_eq_true]
      exact ⟨fun x hx => hall x (List.mem_of_mem_take hx), ih m hrest⟩

theorem historyUnique_trimTo20 (l : List HistoryItem) (h : historyUnique l = true) :
    historyUnique (trimTo20 l) = true := by
  unfold trimTo20
  split
  · exact historyUnique_take l 20 h
  · exact h

/-- C4: under `addToSearchHistory` the history stays unique by place
identifier, never exceeds 20 entries, carries the new entry at the front, and
on overflow (full history, no duplicate removed) evicts exactly the oldest
entry. -/
theorem addToSearchHistory_invariant (st : PlacesState) (q : String) (p : RawPlace)
    (ts : Int) (nid : String) (h : historyUnique st.searchHistory = true) :
    historyUnique (addToSearchHistory st q p ts nid).searchHistory = true ∧
    (addToSearchHistory st q p ts nid).searchHistory.length ≤ 20 ∧
    (addToSearchHistory st q p ts nid).searchHistory.head? =
      some ⟨nid, q, serializeLocationOnly p, ts⟩ ∧
    (st.searchHistory.length = 20 →
      removeFirstByPid (serializeLocationOnly p).place_id st.searchHistory = st.searchHistory →
      (addToSearchHistory st q p ts nid).searchHistory =
        ⟨nid, q, serializeLocationOnly p, ts⟩ :: st.searchHistory.dropLast) := by
  refine ⟨?_, ?_, addToSearchHistory_head? st q p ts nid, ?_⟩
  · unfold addToSearchHistory
    apply historyUnique_trimTo20
    simp only [historyUnique, Bool.and_eq_true, List.all_eq_true]
    refine ⟨?_, removeFirstByPid_unique _ _ h⟩
    intro x hx
    rw [bne_iff_ne]
    exact removeFirstByPid_all_ne _ _ h x hx
  · unfold addToSearchHistory
    exact trimTo20_length_le _
  · intro h20 hrm
    unfold addToSearchHistory trimTo20
    rw [hrm]
    rw [if_pos (by simp [List.length_cons, h20])]
    rw [List.take_cons (by norm_num), List.dropLast_eq_take, h20]

theorem addToSearchHistory_invariant_witness :
    historyUnique (addToSearchHistory ⟨[], sampleHistory, none, []⟩ "q"
      (placeWithId "A") 3 "3").searchHistory = true :=
  (addToSearchHistory_invariant ⟨[], sampleHistory, none, []⟩ "q"
    (placeWithId "A") 3 "3" (by decide)).1

theorem any_isNone_tail (it : HistoryItem) (rest : List HistoryItem)
    (h : (it :: rest).any (fun j => j.place.place_id.isNone) = true)
    (hne : ¬ it.place.place_id = none) :
    rest.any (fun j => j.place.place_id.isNone) = true := by
  simp only [List.any_cons, Bool.or_eq_true] at h
  rcases h with h | h
  · exact absurd (Option.isNone_iff_eq_none.mp h) hne
  · exact h

theorem removeFirstByPid_none_length (l : List HistoryItem)
    (h : l.any (fun it => it.place.place_id.isNone) = true) :
    (removeFirstByPid none l).length + 1 = l.length := by
  induction l with
  | nil => simp at h
  | cons it rest ih =>
    simp only [removeFirstByPid]
    split
    · simp
    · rename_i hne
      simp only [List.length_cons]
      rw [ih (any_isNone_tail it rest h hne)]

theorem removeFirstByPid_none_count (l : List HistoryItem)
    (h : l.any (fun it => it.place.place_id.isNone) = true) :
    countNonePid (removeFirstByPid none l) + 1 = countNonePid l := by
  induction l with
  | nil => simp at h
  | cons it rest ih =>
    simp only [removeFirstByPid]
    split
    · rename_i heq
      unfold countNonePid
      rw [List.countP_cons]
      simp [heq]
    · rename_i hne
      have hfalse : (it.place.place_id.isNone : Bool) = false := by
        cases hh : it.place.place_id with
        | none => exact absurd hh hne
        | some v => rfl
      unfold countNonePid at ih ⊢
      rw [List.countP_cons, List.countP_cons]
      simp only [hfalse, if_false]
      rw [← ih (any_isNone_tail it rest h hne)]
      omega

theorem countNonePid_le_one (l : List HistoryItem) (h : historyUnique l = true) :
    countNonePid l ≤ 1 := by
  induction l with
  | nil => simp [countNonePid]
  | cons it rest ih =>
    simp only [historyUnique, Bool.and_eq_true, List.all_eq_true] at h
    obtain ⟨hall, hrest⟩ := h
    unfold countNonePid at ih ⊢
    rw [List.countP_cons]
    by_cases hit : it.place.place_id = none
    · have hzero : rest.countP (fun j => j.place.place_id.isNone) = 0 := by
        rw [List.countP_eq_zero]
        intro x hx
        have hne := hall x hx
        rw [bne_iff_ne, hit] at hne
        simp only [Option.isNone_iff_eq_none]
        simpa using hne
      simp [hit, hzero]
    · have hfalse : (it.place.place_id.isNone : Bool) = false := by
        cases hh : it.place.place_id with
        | none => exact absurd hh hit
        | some v => rfl
      simp only [hfalse, if_false]
      simpa using ih hrest

/-- C10: duplicate detection compares the raw `place_id` fields, so an
identifier-less place is a duplicate of the first identifier-less history
entry: that entry is removed before the new one is prepended, the length is
unchanged, and a unique history never ends up with two identifier-less
entries. -/
theorem addToSearchHistory_absent_id (st : PlacesState) (q : String) (p : RawPlace)
    (ts : Int) (nid : String)
    (hp : p.place_id = none)
    (hlen : st.searchHistory.length ≤ 20)
    (hex : st.searchHistory.any (fun it => it.place.place_id.isNone) = true) :
    (addToSearchHistory st q p ts nid).searchHistory =
      ⟨nid, q, serializeLocationOnly p, ts⟩ :: removeFirstByPid none st.searchHistory ∧
    (addToSearchHistory st q p ts nid).searchHistory.length = st.searchHistory.length ∧
    (historyUnique st.searchHistory = true →
      countNonePid (addToSearchHistory st q p ts nid).searchHistory ≤ 1) := by
  have hsp : (serializeLocationOnly p).place_id = none := by
    rw [place_id_serializeLocationOnly, hp]
  have hlr : (removeFirstByPid none st.searchHistory).length + 1 = st.searchHistory.length :=
    removeFirstByPid_none_length _ hex
  have heq : (addToSearchHistory st q p ts nid).searchHistory =
      ⟨nid, q, serializeLocationOnly p, ts⟩ :: removeFirstByPid none st.searchHistory := by
    unfold addToSearchHistory
    rw [hsp]
    apply trimTo20_eq_of_le
    rw [List.length_cons]
    omega
  refine ⟨heq, ?_, ?_⟩
  · rw [heq, List.length_cons]
    omega
  · intro hu
    rw [heq]
    have h1 := removeFirstByPid_none_count _ hex
    have h2 := countNonePid_le_one _ hu
    unfold countNonePid at h1 h2 ⊢
    rw [List.countP_cons]
    simp only [hsp, Option.isNone_none, if_true]
    omega

theorem addToSearchHistory_absent_id_witness :
    (addToSearchHistory ⟨[], sampleHistoryNoId, none, []⟩ "new" placeNoId 9 "9").searchHistory =
      ⟨"9", "new", serializeLocationOnly placeNoId, 9⟩ ::
        removeFirstByPid none sampleHistoryNoId :=
  (addToSearchHistory_absent_id ⟨[], sampleHistoryNoId, none, []⟩ "new" placeNoId 9 "9"
    (by decide) (by decide) (by decide)).1

/-! ## Claim C5 — failed detail fetch in the selection workflow -/

theorem updateMap_preserves (nid : String) (st : PlacesState) (p : RawPlace) :
    (applyPlacesActions nid st (updateMapActions p)).searchHistory = st.searchHistory ∧
    (applyPlacesActions nid st (updateMapActions p)).selectedPlace = st.selectedPlace := by
  unfold updateMapActions
  cases placeLocation p <;> exact ⟨rfl, rfl⟩

/-- C8: the state commit of the selected place precedes the search-history
append.  In the current saga file `put(selectPlace(placeDetails))` comes
before `put(addToSearchHistory(...))` in every run; in the newer revision the
commit is the triggering `selectPlace` dispatch itself, which by construction
precedes every saga action; and on the successful path the final state's
history head references exactly the place stored as the current selection. -/
theorem selectPlace_commit_before_append (payload : SelectPayload) (details : DetailsOutcome)
    (ts : Int) (st : PlacesState) (place : RawPlace) (q : Option String) (pd : RawPlace)
    (nid : String) (pid : String) (hpid : place.place_id = some pid) :
    commitBeforeAppend (selectPlaceSagaMain payload details ts) = true ∧
    commitBeforeAppend (.selectPlaceA payload :: selectPlaceSaga006 payload details ts) = true ∧
    (dispatchSelect st (.envelope place q)
        (selectPlaceSagaMain (.envelope place q) (.ok pd) ts) nid).searchHistory.head?.map
          (fun it => it.place)
      = (dispatchSelect st (.envelope place q)
          (selectPlaceSagaMain (.envelope place q) (.ok pd) ts) nid).selectedPlace := by
  refine ⟨?_, rfl, ?_⟩
  · cases payload with
    | invalid => rfl
    | bare p => rfl
    | envelope p' q' =>
      cases hp : p'.place_id with
      | none => simp [selectPlaceSagaMain, hp, commitBeforeAppend, isAppend, isCommit]
      | some v =>
        cases details with
        | ok pd' =>
          simp [selectPlaceSagaMain, hp, selectPlaceContinue, commitBeforeAppend,
                isAppend, isCommit]
        | err m =>
          simp only [selectPlaceSagaMain, hp]
          split
          · simp [selectPlaceContinue, commitBeforeAppend, isAppend, isCommit]
          · simp [commitBeforeAppend, isAppend, isCommit]
  · have htr : selectPlaceSagaMain (.envelope place q) (.ok pd) ts =
        .setMapLoadingA true :: selectPlaceContinue place q pd ts := by
      simp [selectPlaceSagaMain, hpid]
    have key : dispatchSelect st (.envelope place q)
        (selectPlaceSagaMain (.envelope place q) (.ok pd) ts) nid =
        applyPlacesActions nid
          (addToSearchHistory (selectPlace (selectPlace st (.envelope place q)) (.bare pd))
            (jsOrDefault (jsOrS q (jsOrS place.description pd.name)) "Unknown Place") pd ts nid)
          (updateMapActions pd ++ [.setMapLoadingA false]) := by
      rw [dispatchSelect, htr]
      rfl
    rw [key]
    have hsplit : applyPlacesActions nid
        (addToSearchHistory (selectPlace (selectPlace st (.envelope place q)) (.bare pd))
          (jsOrDefault (jsOrS q (jsOrS place.description pd.name)) "Unknown Place") pd ts nid)
        (updateMapActions pd ++ [.setMapLoadingA false]) =
        applyPlacesActions nid
          (applyPlacesActions nid
            (addToSearchHistory (selectPlace (selectPlace st (.envelope place q)) (.bare pd))
              (jsOrDefault (jsOrS q (jsOrS place.description pd.name)) "Unknown Place") pd ts nid)
            (updateMapActions pd)) [.setMapLoadingA false] := by
      unfold applyPlacesActions
      rw [List.foldl_append]
    rw [hsplit]
    obtain ⟨hH, hS⟩ := updateMap_preserves nid
      (addToSearchHistory (selectPlace (selectPlace st (.envelope place q)) (.bare pd))
        (jsOrDefault (jsOrS q (jsOrS place.description pd.name)) "Unknown Place") pd ts nid) pd
    show (applyPlacesActions nid _ (updateMapActions pd)).searchHistory.head?.map
        (fun it => it.place)
      = (applyPlacesActions nid _ (updateMapActions pd)).selectedPlace
    rw [hH, hS, addToSearchHistory_head?]
    rfl

theorem selectPlace_commit_before_append_witness :
    commitBeforeAppend (selectPlaceSagaMain (.envelope predictionPlace (some "kl"))
      (.ok vendorPlace) 1) = true :=
  (selectPlace_commit_before_append (.envelope predictionPlace (some "kl")) (.ok vendorPlace)
    1 initialPlacesState predictionPlace (some "kl") vendorPlace "n" "pid-Petronas" rfl).1

/-! ## Claim C6 — `initialize()` idempotence and concurrency safety -/

theorem initService_pending (s : SvcState) (p : Nat)
    (hE : s.initializationError = none) (hI : s.isInitialized = false)
    (hP : s.initializationPromise = some p) :
    initService s = (s, .awaiting p) := by
  unfold initService
  rw [hE, hI, hP]

theorem initService_ready (s : SvcState) (g : Nat)
    (hE : s.initializationError = none) (hI : s.isInitialized = true)
    (hG : s.google = some g) (hA : s.autocompleteService = true) :
    initService s = (s, .handle g) := by
  unfold initService
  rw [hE, hI, hG, hA]

theorem runSvc_pending_calls (n : Nat) (s : SvcState) (acc : List InitOutcome) (p : Nat)
    (hE : s.initializationError = none) (hI : s.isInitialized = false)
    (hP : s.initializationPromise = some p) :
    List.foldl svcStep (s, acc) (List.replicate n .callInit) =
      (s, acc ++ List.replicate n (.awaiting p)) := by
  induction n generalizing acc with
  | zero => simp
  | succ m ih =>
    rw [List.replicate_succ, List.foldl_cons]
    have h1 : svcStep (s, acc) .callInit = (s, acc ++ [.awaiting p]) := by
      unfold svcStep
      rw [initService_pending s p hE hI hP]
    rw [h1, ih (acc ++ [InitOutcome.awaiting p]), List.append_assoc, List.singleton_append,
        ← List.replicate_succ]

theorem runSvc_ready_calls (n : Nat) (s : SvcState) (acc : List InitOutcome) (g : Nat)
    (hE : s.initializationError = none) (hI : s.isInitialized = true)
    (hG : s.google = some g) (hA : s.autocompleteService = true) :
    List.foldl svcStep (s, acc) (List.replicate n .callInit) =
      (s, acc ++ List.replicate n (.handle g)) := by
  induction n generalizing acc with
  | zero => simp
  | succ m ih =>
    rw [List.replicate_succ, List.foldl_cons]
    have h1 : svcStep (s, acc) .callInit = (s, acc ++ [.handle g]) := by
      unfold svcStep
      rw [initService_ready s g hE hI hG hA]
    rw [h1, ih (acc ++ [InitOutcome.handle g]), List.append_assoc, List.singleton_append,
        ← List.replicate_succ]

/-- C6: for any `k₁ ≥ 1` callers arriving before the SDK load settles and any
`k₂` callers arriving afterwards, exactly one `loader.load()` is triggered
(`loadCount = 1`); all in-flight callers receive the same shared promise
(id 0), which the one load resolves to the handle, and all later callers get
that same cached handle directly with no further load. -/
theorem initService_idempotent (k₁ k₂ : Nat) (h : Nat) (hk : 1 ≤ k₁) :
    (runSvc (List.replicate k₁ .callInit ++ [.loadOk h] ++
      List.replicate k₂ .callInit)).1.loadCount = 1 ∧
    (runSvc (List.replicate k₁ .callInit ++ [.loadOk h] ++
      List.replicate k₂ .callInit)).2 =
      List.replicate k₁ (.awaiting 0) ++ List.replicate k₂ (.handle h) ∧
    (runSvc (List.replicate k₁ .callInit ++ [.loadOk h] ++
      List.replicate k₂ .callInit)).1.google = some h ∧
    (runSvc (List.replicate k₁ .callInit ++ [.loadOk h] ++
      List.replicate k₂ .callInit)).1.isInitialized = true := by
  obtain ⟨k, rfl⟩ : ∃ k, k₁ = k + 1 := ⟨k₁ - 1, by omega⟩
  have hrep1 : List.foldl svcStep (svcInit, []) (List.replicate (k + 1) .callInit) =
      ((⟨false, none, false, some 0, none, 1, 1⟩ : SvcState),
        List.replicate (k + 1) (.awaiting 0)) := by
    rw [List.replicate_succ, List.foldl_cons]
    have h0 : svcStep (svcInit, []) .callInit =
        ((⟨false, none, false, some 0, none, 1, 1⟩ : SvcState), [.awaiting 0]) := rfl
    rw [h0, runSvc_pending_calls k _ [.awaiting 0] 0 rfl rfl rfl, List.singleton_append,
        ← List.replicate_succ]
  have hload : List.foldl svcStep
      ((⟨false, none, false, some 0, none, 1, 1⟩ : SvcState),
        List.replicate (k + 1) (.awaiting 0)) [SvcEv.loadOk h] =
      ((⟨true, some h, true, none, none, 1, 1⟩ : SvcState),
        List.replicate (k + 1) (.awaiting 0)) := rfl
  have hfull : runSvc (List.replicate (k + 1) .callInit ++ [.loadOk h] ++
      List.replicate k₂ .callInit) =
      ((⟨true, some h, true, none, none, 1, 1⟩ : SvcState),
        List.replicate (k + 1) (.awaiting 0) ++ List.replicate k₂ (.handle h)) := by
    unfold runSvc
    rw [List.foldl_append, List.foldl_append, hrep1, hload,
        runSvc_ready_calls k₂ _ _ h rfl rfl rfl rfl]
  rw [hfull]
  exact ⟨rfl, rfl, rfl, rfl⟩

theorem initService_idempotent_witness :
    (runSvc (List.replicate 3 .callInit ++ [.loadOk 7] ++
      List.replicate 2 .callInit)).1.loadCount = 1 :=
  (initService_idempotent 3 2 7 (by decide)).1

/-! ## Claim C3 — superseded searches cancelled, late results discarded -/

theorem allCancelled_set (ts : List SearchTask) (i : Nat) (t : SearchTask) (ph : SearchPhase)
    (hget : ts[i]? = some t) (hall : ts.all (·.cancelled) = true) :
    (ts.set i { t with phase := ph }).all (·.cancelled) = true := by
  rw [List.all_eq_true] at hall ⊢
  intro x hx
  rcases List.mem_or_eq_of_mem_set hx with h | h
  · exact hall x h
  · subst h
    exact hall t (List.getElem?_mem hget)

theorem oldTasksCancelled_set (ts : List SearchTask) (i : Nat) (t : SearchTask)
    (ph : SearchPhase) (hget : ts[i]? = some t) (h : oldTasksCancelled ts = true) :
    oldTasksCancelled (ts.set i { t with phase := ph }) = true := by
  cases ts with
  | nil => simp at hget
  | cons t0 rest =>
    cases i with
    | zero => rw [List.set_cons_zero]; exact h
    | succ j =>
      rw [List.set_cons_succ]
      show (rest.set j { t with phase := ph }).all (·.cancelled) = true
      have hg : rest[j]? = some t := by simpa using hget
      exact allCancelled_set rest j t ph hg h

theorem oldTasksCancelled_flowStep (s : FlowState) (e : FlowEv)
    (h : oldTasksCancelled s.tasks = true) :
    oldTasksCancelled (flowStep s e).tasks = true := by
  cases e with
  | submit q =>
    show (cancelCurrent s.tasks).all (·.cancelled) = true
    cases hts : s.tasks with
    | nil => rfl
    | cons t ts =>
      rw [hts] at h
      have h2 : ts.all (·.cancelled) = true := h
      show ({ t with cancelled := true } :: ts).all (·.cancelled) = true
      simp [h2]
  | fire i =>
    simp only [flowStep]
    split
    · rename_i t hget
      by_cases hc1 : t.cancelled = false ∧ t.phase = SearchPhase.debouncing
      · by_cases hc2 : t.query.length < 2
        · rw [if_pos hc1, if_pos hc2]
          exact oldTasksCancelled_set _ _ _ _ hget h
        · rw [if_pos hc1, if_neg hc2]
          exact oldTasksCancelled_set _ _ _ _ hget h
      · rw [if_neg hc1]
        exact h
    · exact h
  | complete i =>
    simp only [flowStep]
    split
    · rename_i t hget
      by_cases hc1 : t.cancelled = false ∧ t.phase = SearchPhase.inflight
      · rw [if_pos hc1]
        exact oldTasksCancelled_set _ _ _ _ hget h
      · rw [if_neg hc1]
        exact h
    · exact h

theorem oldTasksCancelled_run (evs : List FlowEv) (s : FlowState)
    (h : oldTasksCancelled s.tasks = true) :
    oldTasksCancelled (List.foldl flowStep s evs).tasks = true := by
  induction evs generalizing s with
  | nil => exact h
  | cons e evs ih => exact ih _ (oldTasksCancelled_flowStep s e h)

/-- While no new submission occurs, the flow state keeps the same head task
(by query), the cancelled tail never changes, and the committed query can only
move to the head task's query. -/
theorem flow_run_head (evs : List FlowEv) :
    ∀ (t0 : SearchTask) (rest : List SearchTask) (c : Option String),
      rest.all (·.cancelled) = true → evs.all (fun e => !isSubmit e) = true →
      ∃ t0' c', List.foldl flowStep ⟨t0 :: rest, c⟩ evs = ⟨t0' :: rest, c'⟩ ∧
        t0'.query = t0.query ∧ (c' = c ∨ c' = some t0.query) := by
  induction evs with
  | nil => exact fun t0 rest c _ _ => ⟨t0, c, rfl, rfl, Or.inl rfl⟩
  | cons e evs ih =>
    intro t0 rest c hrest hev
    rw [List.all_cons, Bool.and_eq_true] at hev
    obtain ⟨he, hev2⟩ := hev
    have hstep : ∃ t0m cm, flowStep ⟨t0 :: rest, c⟩ e = ⟨t0m :: rest, cm⟩ ∧
        t0m.query = t0.query ∧ (cm = c ∨ cm = some t0.query) := by
      cases e with
      | submit q => simp [isSubmit] at he
      | fire i =>
        cases i with
        | zero =>
          by_cases hcond : t0.cancelled = false ∧ t0.phase = SearchPhase.debouncing
          · by_cases hshort : t0.query.length < 2
            · refine ⟨{ t0 with phase := .finished }, some t0.query, ?_, rfl, Or.inr rfl⟩
              simp only [flowStep]
              split
              · rename_i t2 hg2
                rw [List.getElem?_cons_zero] at hg2
                injection hg2 with ht2
                subst ht2
                rw [if_pos hcond, if_pos hshort, List.set_cons_zero]
              · rename_i hg2
                rw [List.getElem?_cons_zero] at hg2
                simp at hg2
            · refine ⟨{ t0 with phase := .inflight }, c, ?_, rfl, Or.inl rfl⟩
              simp only [flowStep]
              split
              · rename_i t2 hg2
                rw [List.getElem?_cons_zero] at hg2
                injection hg2 with ht2
                subst ht2
                rw [if_pos hcond, if_neg hshort, List.set_cons_zero]
              · rename_i hg2
                rw [List.getElem?_cons_zero] at hg2
                simp at hg2
          · refine ⟨t0, c, ?_, rfl, Or.inl rfl⟩
            simp only [flowStep]
            split
            · rename_i t2 hg2
              rw [List.getElem?_cons_zero] at hg2
              injection hg2 with ht2
              subst ht2
              rw [if_neg hcond]
            · rfl
        | succ j =>
          refine ⟨t0, c, ?_, rfl, Or.inl rfl⟩
          simp only [flowStep]
          split
          · rename_i t2 hg2
            rw [List.getElem?_cons_succ] at hg2
            have hc : t2.cancelled = true := by
              rw [List.all_eq_true] at hrest
              exact hrest t2 (List.getElem?_mem hg2)
            have hnot : ¬(t2.cancelled = false ∧ t2.phase = SearchPhase.debouncing) := by
              intro hcon
              rw [hc] at hcon
              exact absurd hcon.1 (by simp)
            rw [if_neg hnot]
          · rfl
      | complete i =>
        cases i with
        | zero =>
          by_cases hcond : t0.cancelled = false ∧ t0.phase = SearchPhase.inflight
          · refine ⟨{ t0 with phase := .finished }, some t0.query, ?_, rfl, Or.inr rfl⟩
            simp only [flowStep]
            split
            · rename_i t2 hg2
              rw [List.getElem?_cons_zero] at hg2
              injection hg2 with ht2
              subst ht2
              rw [if_pos hcond, List.set_cons_zero]
            · rename_i hg2
              rw [List.getElem?_cons_zero] at hg2
              simp at hg2
          · refine ⟨t0, c, ?_, rfl, Or.inl rfl⟩
            simp only [flowStep]
            split
            · rename_i t2 hg2
              rw [List.getElem?_cons_zero] at hg2
              injection hg2 with ht2
              subst ht2
              rw [if_neg hcond]
            · rfl
        | succ j =>
          refine ⟨t0, c, ?_, rfl, Or.inl rfl⟩
          simp only [flowStep]
          split
          · rename_i t2 hg2
            rw [List.getElem?_cons_succ] at hg2
            have hc : t2.cancelled = true := by
              rw [List.all_eq_true] at hrest
              exact hrest t2 (List.getElem?_mem hg2)
            have hnot : ¬(t2.cancelled = false ∧ t2.phase = SearchPhase.inflight) := by
              intro hcon
              rw [hc] at hcon
              exact absurd hcon.1 (by simp)
            rw [if_neg hnot]
          · rfl
    obtain ⟨t0m, cm, hs, hqm, hcm⟩ := hstep
    obtain ⟨t0f, cf, hrun, hqf, hcf⟩ := ih t0m rest cm hrest hev2
    refine ⟨t0f, cf, ?_, hqf.trans hqm, ?_⟩
    · rw [List.foldl_cons, hs, hrun]
    · rcases hcf with h | h
      · rcases hcm with h2 | h2
        · exact Or.inl (h.trans h2)
        · exact Or.inr (h.trans h2)
      · exact Or.inr (by rw [h, hqm])

/-- C3, counterexample: in the newer revision's `debounce(500, ...)`-based
flow the worker of a superseded query is never cancelled.  Submitting `ab`
and then `cd`, `cd`'s vendor response commits first and `ab`'s late response
then overwrites it: the committed suggestions end up neither what they were
at the last submission nor the last submitted query's results, refuting the
claim for that revision. -/
theorem debounceFlow_late_overwrite :
    (runDebFlow [.spawn "ab", .spawn "cd", .complete 0, .complete 1]).committed
      = some "ab" ∧
    ¬((runDebFlow [.spawn "ab", .spawn "cd", .complete 0, .complete 1]).committed
        = (runDebFlow [.spawn "ab", .spawn "cd"]).committed ∨
      (runDebFlow [.spawn "ab", .spawn "cd", .complete 0, .complete 1]).committed
        = some "cd") := by
  decide

/-- C3, amended (holds of the `searchFlowSaga` take/cancel/fork revision in
the current saga file, not of the newer revision's debounce-based flow):
after each new submission every previously forked search task is cancelled;
while no further submission occurs, the committed suggestion state either
stays what it was at submission time or carries the last submitted query's
results; and a cancelled task's late debounce or vendor response is a no-op,
never written to state. -/
theorem searchFlow_last_query_wins (evs : List FlowEv) (q : String) (evs2 : List FlowEv)
    (h2 : evs2.all (fun e => !isSubmit e) = true) :
    oldTasksCancelled (runFlow (evs ++ [.submit q])).tasks = true ∧
    ((runFlow (evs ++ [.submit q] ++ evs2)).committed
        = (runFlow (evs ++ [.submit q])).committed ∨
      (runFlow (evs ++ [.submit q] ++ evs2)).committed = some q) ∧
    (∀ (s : FlowState) (i : Nat) (t : SearchTask), s.tasks[i]? = some t →
      t.cancelled = true → flowStep s (.fire i) = s ∧ flowStep s (.complete i) = s) := by
  have hinv : oldTasksCancelled (runFlow evs).tasks = true :=
    oldTasksCancelled_run evs flowInit rfl
  have hsub : runFlow (evs ++ [.submit q]) =
      ⟨⟨q, .debouncing, false⟩ :: cancelCurrent (runFlow evs).tasks,
        (runFlow evs).committed⟩ := by
    unfold runFlow
    rw [List.foldl_append]
    rfl
  have hcc : (cancelCurrent (runFlow evs).tasks).all (·.cancelled) = true := by
    cases hts : (runFlow evs).tasks with
    | nil => rfl
    | cons t ts =>
      rw [hts] at hinv
      have hinv' : ts.all (·.cancelled) = true := hinv
      show ({ t with cancelled := true } :: ts).all (·.cancelled) = true
      simp [hinv']
  refine ⟨?_, ?_, ?_⟩
  · rw [hsub]
    exact hcc
  · obtain ⟨t0f, cf, hrun, hqf, hcf⟩ := flow_run_head evs2 ⟨q, .debouncing, false⟩
      (cancelCurrent (runFlow evs).tasks) (runFlow evs).committed hcc h2
    have hfull : runFlow (evs ++ [.submit q] ++ evs2) = ⟨t0f :: cancelCurrent
        (runFlow evs).tasks, cf⟩ := by
      show List.foldl flowStep flowInit ((evs ++ [.submit q]) ++ evs2) = _
      rw [List.foldl_append]
      show List.foldl flowStep (runFlow (evs ++ [.submit q])) evs2 = _
      rw [hsub, hrun]
    rw [hfull, hsub]
    exact hcf
  · intro s i t hget hcanc
    constructor
    · simp only [flowStep]
      split
      · rename_i t2 hget2
        rw [hget] at hget2
        injection hget2 with ht2
        subst ht2
        have hnot : ¬(t.cancelled = false ∧ t.phase = SearchPhase.debouncing) := by
          intro hcon
          rw [hcanc] at hcon
          exact absurd hcon.1 (by simp)
        rw [if_neg hnot]
      · rfl
    · simp only [flowStep]
      split
      · rename_i t2 hget2
        rw [hget] at hget2
        injection hget2 with ht2
        subst ht2
        have hnot : ¬(t.cancelled = false ∧ t.phase = SearchPhase.inflight) := by
          intro hcon
          rw [hcanc] at hcon
          exact absurd hcon.1 (by simp)
        rw [if_neg hnot]
      · rfl

theorem searchFlow_last_query_wins_witness :
    (runFlow ([.submit "ab", .fire 0] ++ [.submit "cd"] ++ [.complete 1, .fire 0, .complete 0])).committed
        = (runFlow ([.submit "ab", .fire 0] ++ [.submit "cd"])).committed ∨
      (runFlow ([.submit "ab", .fire 0] ++ [.submit "cd"] ++ [.complete 1, .fire 0, .complete 0])).committed
        = some "cd" :=
  (searchFlow_last_query_wins [.submit "ab", .fire 0] "cd" [.complete 1, .fire 0, .complete 0]
    (by decide)).2.1

end SeePlace
